import Mathlib

/-!
Verification of the core logic of a small Flask blogging application
(`app.py`, `models/blog.py`, `utils/db.py`).

Strings are modelled as `List Char` (Python `str` at the level of
characters).  Pure helper functions (`_generate_excerpt`,
`_generate_slug`, `validate_date`, `formatted_date`, the counter
mutations, and the listing/search/sort query composition) are embedded
as executable Lean functions; the SQLite-backed store is modelled as an
explicit record of author and blog rows, with each `db.session.commit()`
an atomic replacement of that record.
-/

namespace BlogApp

/-! ### Character-level helpers (Python semantics, ASCII) -/

/-- Python `str.split()` whitespace class (`' '`, `\t`, `\n`, `\r`, `\x0b`, `\x0c`). -/
def isPySpace (c : Char) : Bool :=
  c = ' ' || c = '\t' || c = '\n' || c = '\r' || c = '\x0b' || c = '\x0c'

/-- ASCII decimal digit test. -/
def isDigitCh (c : Char) : Bool :=
  '0' ≤ c && c ≤ '9'

/-- Numeric value of an ASCII digit character. -/
def digitVal (c : Char) : Nat :=
  c.toNat - 48

/-! ### `' '.join(content.split())` — whitespace collapsing

`models/blog.py`, `Blog._generate_excerpt` line 117:
`clean_content = ' '.join(content.split())`. -/

/-- Accumulator-based model of Python `str.split()` (split on whitespace
runs, dropping empty tokens).  `acc` holds the current token reversed. -/
def pySplitAux : List Char → List Char → List (List Char)
  | [], acc => if acc.isEmpty then [] else [acc.reverse]
  | c :: cs, acc =>
    if isPySpace c then
      if acc.isEmpty then pySplitAux cs [] else acc.reverse :: pySplitAux cs []
    else
      pySplitAux cs (c :: acc)

/-- Python `content.split()`. -/
def pySplit (l : List Char) : List (List Char) :=
  pySplitAux l []

/-- Python `' '.join(tokens)`. -/
def joinSp : List (List Char) → List Char
  | [] => []
  | t :: ts =>
    match ts with
    | [] => t
    | _ :: _ => t ++ ' ' :: joinSp ts

/-- `' '.join(content.split())`: collapse whitespace runs to single
spaces, trimming leading/trailing whitespace. -/
def collapse (l : List Char) : List Char :=
  joinSp (pySplit l)

/-! ### Python `str.rfind` on single characters -/

/-- Python `s.rfind(c)`: index of the rightmost occurrence of `c`, or
`-1` when `c` does not occur. -/
def rfind : List Char → Char → Int
  | [], _ => -1
  | x :: xs, c =>
    if 0 ≤ rfind xs c then rfind xs c + 1
    else if x = c then 0 else -1

theorem rfind_nonneg_iff_mem (l : List Char) (c : Char) :
    0 ≤ rfind l c ↔ c ∈ l := by
  induction l with
  | nil => simp [rfind]
  | cons x xs ih =>
    by_cases h : 0 ≤ rfind xs c
    · simp only [rfind, if_pos h]
      constructor
      · intro _; exact List.mem_cons_of_mem _ (ih.mp h)
      · intro _; omega
    · simp only [rfind, if_neg h]
      by_cases hx : x = c
      · subst hx
        simp
      · rw [if_neg hx]
        simp only [List.mem_cons]
        constructor
        · intro hle; omega
        · intro hmem
          rcases hmem with h1 | h2
          · exact absurd h1.symm hx
          · exact absurd (ih.mpr h2) h

theorem rfind_eq_zero (l : List Char) (c : Char) (h : rfind l c = 0) :
    ∃ t, l = c :: t := by
  cases l with
  | nil => simp [rfind] at h
  | cons x xs =>
    by_cases h0 : 0 ≤ rfind xs c
    · simp only [rfind, if_pos h0] at h
      omega
    · simp only [rfind, if_neg h0] at h
      by_cases hx : x = c
      · exact ⟨xs, by rw [hx]⟩
      · rw [if_neg hx] at h
        omega

theorem rfind_lt_length (l : List Char) (c : Char) :
    rfind l c < l.length := by
  induction l with
  | nil => simp [rfind]
  | cons x xs ih =>
    simp only [rfind, List.length_cons]
    by_cases h : 0 ≤ rfind xs c
    · rw [if_pos h]; push_cast; omega
    · rw [if_neg h]
      by_cases hx : x = c
      · rw [if_pos hx]; push_cast; omega
      · rw [if_neg hx]; push_cast; omega

/-! ### Facts about `collapse`: its output never begins with a space -/

theorem pySplitAux_tokens (cs : List Char) :
    ∀ acc, (∀ c ∈ acc, isPySpace c = false) →
      ∀ t ∈ pySplitAux cs acc, t ≠ [] ∧ ∀ c ∈ t, isPySpace c = false := by
  induction cs with
  | nil =>
    intro acc hacc t ht
    simp only [pySplitAux] at ht
    by_cases he : acc.isEmpty
    · rw [if_pos he] at ht; simp at ht
    · rw [if_neg he] at ht
      simp only [List.mem_singleton] at ht
      subst ht
      refine ⟨?_, ?_⟩
      · intro hrev
        have : acc = [] := by simpa using congrArg List.reverse hrev
        rw [this] at he
        simp at he
      · intro c hc
        exact hacc c (List.mem_reverse.mp hc)
  | cons x xs ih =>
    intro acc hacc t ht
    simp only [pySplitAux] at ht
    by_cases hs : isPySpace x
    · rw [if_pos hs] at ht
      by_cases he : acc.isEmpty
      · rw [if_pos he] at ht
        exact ih [] (by simp) t ht
      · rw [if_neg he] at ht
        rcases List.mem_cons.mp ht with h1 | h2
        · subst h1
          refine ⟨?_, ?_⟩
          · intro hrev
            have : acc = [] := by simpa using congrArg List.reverse hrev
            rw [this] at he
            simp at he
          · intro c hc
            exact hacc c (List.mem_reverse.mp hc)
        · exact ih [] (by simp) t h2
    · rw [if_neg hs] at ht
      refine ih (x :: acc) ?_ t ht
      intro c hc
      rcases List.mem_cons.mp hc with h1 | h2
      · subst h1; exact Bool.eq_false_iff.mpr hs
      · exact hacc c h2

theorem joinSp_head (ts : List (List Char))
    (h : ∀ t ∈ ts, t ≠ [] ∧ ∀ c ∈ t, isPySpace c = false) :
    joinSp ts = [] ∨ ∃ c l', joinSp ts = c :: l' ∧ isPySpace c = false := by
  cases ts with
  | nil => left; rfl
  | cons t rest =>
    right
    obtain ⟨hne, hchars⟩ := h t (List.mem_cons_self t rest)
    cases t with
    | nil => exact absurd rfl hne
    | cons c cs =>
      have hc : isPySpace c = false := hchars c (List.mem_cons_self c cs)
      cases rest with
      | nil => exact ⟨c, cs, rfl, hc⟩
      | cons u us => exact ⟨c, cs ++ ' ' :: joinSp (u :: us), rfl, hc⟩

theorem collapse_head (l : List Char) :
    collapse l = [] ∨ ∃ c l', collapse l = c :: l' ∧ isPySpace c = false :=
  joinSp_head (pySplit l) (pySplitAux_tokens l [] (by simp))

/-! ### `Blog._generate_excerpt` (`models/blog.py` lines 114-135) -/

/-- The literal `'...'` appended by the excerpt generator. -/
def dots : List Char :=
  ['.', '.', '.']

/-- `excerpt = clean_content[:150]` (the 150-character window). -/
def window (content : List Char) : List Char :=
  (collapse content).take 150

/-- `last_sentence_end = max(last_period, last_exclamation, last_question)`. -/
def lastSentenceEnd (w : List Char) : Int :=
  max (rfind w '.') (max (rfind w '!') (rfind w '?'))

/-- `Blog._generate_excerpt`, translated clause by clause:
whitespace-collapse; return as-is at length ≤ 150; otherwise prefer a
sentence break after index 100, else cut at the last space (when its
index is positive) and append `'...'`, else append `'...'` to the raw
window. -/
def generate_excerpt (content : List Char) : List Char :=
  if (collapse content).length ≤ 150 then collapse content
  else if 100 < lastSentenceEnd (window content) then
    (window content).take ((lastSentenceEnd (window content)).toNat + 1)
  else if 0 < rfind (window content) ' ' then
    (window content).take ((rfind (window content) ' ').toNat) ++ dots
  else
    window content ++ dots

/-- The excerpt algorithm as the specification words it: the final
fallback distinguishes on whether a space *exists* in the window
(rather than on the code's `last_space > 0`). -/
def excerptSpec (content : List Char) : List Char :=
  if (collapse content).length ≤ 150 then collapse content
  else if 100 < lastSentenceEnd (window content) then
    (window content).take ((lastSentenceEnd (window content)).toNat + 1)
  else if ' ' ∈ window content then
    (window content).take ((rfind (window content) ' ').toNat) ++ dots
  else
    window content ++ dots

theorem window_head (content : List Char)
    (h : ¬ (collapse content).length ≤ 150) :
    ∃ c l', window content = c :: l' ∧ isPySpace c = false := by
  rcases collapse_head content with h0 | ⟨c, l', hcl, hc⟩
  · rw [h0] at h; simp at h
  · exact ⟨c, l'.take 149, by rw [window, hcl]; rfl, hc⟩

theorem rfind_window_space_pos (content : List Char)
    (hlen : ¬ (collapse content).length ≤ 150)
    (hm : ' ' ∈ window content) :
    0 < rfind (window content) ' ' := by
  have hge : 0 ≤ rfind (window content) ' ' :=
    (rfind_nonneg_iff_mem _ _).mpr hm
  have hne : rfind (window content) ' ' ≠ 0 := by
    intro heq
    obtain ⟨t, ht⟩ := rfind_eq_zero _ _ heq
    obtain ⟨c, l', hw, hc⟩ := window_head content hlen
    rw [hw] at ht
    have hce : c = ' ' := by injection ht
    rw [hce] at hc
    simp [isPySpace] at hc
  omega

/-- C1: the excerpt generator agrees everywhere with the specification's
description; in particular the code's `last_space > 0` test coincides
with "a space exists in the window", because the whitespace-collapsed
content never begins with a space. -/
theorem generate_excerpt_eq_excerptSpec (content : List Char) :
    generate_excerpt content = excerptSpec content := by
  unfold generate_excerpt excerptSpec
  by_cases h1 : (collapse content).length ≤ 150
  · rw [if_pos h1, if_pos h1]
  · rw [if_neg h1, if_neg h1]
    by_cases h2 : 100 < lastSentenceEnd (window content)
    · rw [if_pos h2, if_pos h2]
    · rw [if_neg h2, if_neg h2]
      by_cases hm : ' ' ∈ window content
      · rw [if_pos (rfind_window_space_pos content h1 hm), if_pos hm]
      · have hneg : ¬ 0 < rfind (window content) ' ' := by
          intro hpos
          exact hm ((rfind_nonneg_iff_mem _ _).mp (le_of_lt hpos))
        rw [if_neg hneg, if_neg hm]

theorem window_length_le (content : List Char) :
    (window content).length ≤ 150 := by
  simp [window, List.length_take_le]

/-- C10: every excerpt the generator produces has at most 153
characters — a 150-character window plus at most the 3-character
`'...'` marker. -/
theorem generate_excerpt_length_le (content : List Char) :
    (generate_excerpt content).length ≤ 153 := by
  unfold generate_excerpt
  by_cases h1 : (collapse content).length ≤ 150
  · rw [if_pos h1]; omega
  · rw [if_neg h1]
    have hw := window_length_le content
    by_cases h2 : 100 < lastSentenceEnd (window content)
    · rw [if_pos h2]
      have := List.length_take_le ((lastSentenceEnd (window content)).toNat + 1)
        (window content)
      have h3 : ((window content).take
          ((lastSentenceEnd (window content)).toNat + 1)).length
          ≤ (window content).length := by
        simp [List.length_take]
      omega
    · rw [if_neg h2]
      by_cases h3 : 0 < rfind (window content) ' '
      · rw [if_pos h3]
        have h4 : ((window content).take
            ((rfind (window content) ' ').toNat)).length
            ≤ (window content).length := by
          simp [List.length_take]
        simp only [List.length_append]
        have : dots.length = 3 := rfl
        omega
      · rw [if_neg h3]
        simp only [List.length_append]
        have : dots.length = 3 := rfl
        omega

/-! ### `Blog._generate_slug` (`models/blog.py` lines 107-112)

`slug = re.sub(r'[^\w\s-]', '', title.lower())`,
`slug = re.sub(r'[-\s]+', '-', slug)`, `return slug[:50]`.
`\w` is modelled over ASCII: letters, digits and underscore. -/

/-- Regex `\w` (ASCII): letter, digit or underscore. -/
def isWordCh (c : Char) : Bool :=
  ('a' ≤ c && c ≤ 'z') || ('A' ≤ c && c ≤ 'Z') || isDigitCh c || c = '_'

/-- Character class `[\w\s-]`: what `re.sub(r'[^\w\s-]', '', ...)` keeps. -/
def isKeepCh (c : Char) : Bool :=
  isWordCh c || isPySpace c || c = '-'

/-- Character class `[-\s]`. -/
def isHyWs (c : Char) : Bool :=
  c = '-' || isPySpace c

/-- `re.sub(r'[-\s]+', '-', s)`: replace every maximal run of hyphens
and whitespace with a single hyphen.  The flag records whether we are
inside such a run. -/
def collapseHyAux : Bool → List Char → List Char
  | _, [] => []
  | inRun, c :: cs =>
    if isHyWs c then
      if inRun then collapseHyAux true cs else '-' :: collapseHyAux true cs
    else
      c :: collapseHyAux false cs

/-- `Blog._generate_slug`: lowercase, strip characters outside
`[\w\s-]`, collapse `[-\s]+` runs to single hyphens, truncate to 50. -/
def generate_slug (title : List Char) : List Char :=
  (collapseHyAux false ((title.map Char.toLower).filter isKeepCh)).take 50

/-! #### `Char.toLower` facts (this is exactly Python `str.lower` on ASCII) -/

theorem toLower_eq_ite (c : Char) :
    Char.toLower c =
      if c.toNat ≥ 65 ∧ c.toNat ≤ 90 then Char.ofNat (c.toNat + 32) else c := rfl

theorem toLower_ofNat_shift :
    ∀ n < 91, 65 ≤ n → Char.toLower (Char.ofNat (n + 32)) = Char.ofNat (n + 32) := by
  decide

theorem toLower_idem (c : Char) :
    Char.toLower (Char.toLower c) = Char.toLower c := by
  by_cases h : c.toNat ≥ 65 ∧ c.toNat ≤ 90
  · rw [toLower_eq_ite c, if_pos h]
    exact toLower_ofNat_shift c.toNat (by omega) h.1
  · rw [toLower_eq_ite c, if_neg h, toLower_eq_ite c, if_neg h]

/-! #### Structure of `collapseHyAux` output -/

/-- No two adjacent characters of the `[-\s]` class. -/
def noRun : List Char → Bool
  | [] => true
  | [_] => true
  | a :: b :: rest => !(isHyWs a && isHyWs b) && noRun (b :: rest)

theorem noRun_tail {a : Char} {l : List Char} (h : noRun (a :: l) = true) :
    noRun l = true := by
  cases l with
  | nil => rfl
  | cons b t =>
    simp only [noRun, Bool.and_eq_true] at h
    exact h.2

theorem noRun_cons {a : Char} {l : List Char} (ha : isHyWs a = false)
    (h : noRun l = true) : noRun (a :: l) = true := by
  cases l with
  | nil => rfl
  | cons b t => simp [noRun, ha, h]

theorem mem_collapseHyAux {c : Char} :
    ∀ (b : Bool) (l : List Char), c ∈ collapseHyAux b l →
      c = '-' ∨ (c ∈ l ∧ isHyWs c = false) := by
  intro b l
  induction l generalizing b with
  | nil => intro h; simp [collapseHyAux] at h
  | cons x xs ih =>
    intro h
    simp only [collapseHyAux] at h
    by_cases hx : isHyWs x
    · rw [if_pos hx] at h
      by_cases hb : b
      · rw [if_pos hb] at h
        rcases ih true h with h1 | ⟨h2, h3⟩
        · exact Or.inl h1
        · exact Or.inr ⟨List.mem_cons_of_mem _ h2, h3⟩
      · rw [if_neg hb] at h
        rcases List.mem_cons.mp h with h1 | h2
        · exact Or.inl h1
        · rcases ih true h2 with h3 | ⟨h4, h5⟩
          · exact Or.inl h3
          · exact Or.inr ⟨List.mem_cons_of_mem _ h4, h5⟩
    · rw [if_neg hx] at h
      rcases List.mem_cons.mp h with h1 | h2
      · subst h1
        exact Or.inr ⟨List.mem_cons_self _ _, Bool.eq_false_iff.mpr hx⟩
      · rcases ih false h2 with h3 | ⟨h4, h5⟩
        · exact Or.inl h3
        · exact Or.inr ⟨List.mem_cons_of_mem _ h4, h5⟩

theorem collapseHyAux_true_head :
    ∀ l : List Char, collapseHyAux true l = [] ∨
      ∃ d t, collapseHyAux true l = d :: t ∧ isHyWs d = false := by
  intro l
  induction l with
  | nil => left; rfl
  | cons x xs ih =>
    by_cases hx : isHyWs x
    · simpa [collapseHyAux, hx] using ih
    · right
      exact ⟨x, collapseHyAux false xs, by simp [collapseHyAux, hx],
        Bool.eq_false_iff.mpr hx⟩

theorem noRun_collapseHyAux : ∀ (l : List Char) (b : Bool),
    noRun (collapseHyAux b l) = true := by
  intro l
  induction l with
  | nil => intro b; rfl
  | cons x xs ih =>
    intro b
    by_cases hx : isHyWs x
    · by_cases hb : b
      · simpa [collapseHyAux, hx, hb] using ih true
      · simp only [collapseHyAux, if_pos hx, hb, if_neg]
        rcases collapseHyAux_true_head xs with h0 | ⟨d, t, hdt, hd⟩
        · rw [h0]; rfl
        · rw [hdt]
          have := ih true
          rw [hdt] at this
          simp [noRun, hd, this]
    · simp only [collapseHyAux, if_neg hx]
      exact noRun_cons (Bool.eq_false_iff.mpr hx) (ih false)

theorem collapseHyAux_flag_eq {l : List Char}
    (h : l = [] ∨ ∃ d t, l = d :: t ∧ isHyWs d = false) :
    collapseHyAux true l = collapseHyAux false l := by
  rcases h with h0 | ⟨d, t, hdt, hd⟩
  · subst h0; rfl
  · subst hdt
    simp [collapseHyAux, hd]

theorem collapseHyAux_id : ∀ l : List Char,
    (∀ c ∈ l, isHyWs c = false ∨ c = '-') → noRun l = true →
    collapseHyAux false l = l := by
  intro l
  induction l with
  | nil => intro _ _; rfl
  | cons x xs ih =>
    intro hmem hrun
    by_cases hx : isHyWs x
    · have hdash : x = '-' := by
        rcases hmem x (List.mem_cons_self _ _) with h1 | h2
        · rw [hx] at h1; cases h1
        · exact h2
      have hxs : collapseHyAux true xs = collapseHyAux false xs := by
        apply collapseHyAux_flag_eq
        cases xs with
        | nil => exact Or.inl rfl
        | cons y ys =>
          right
          refine ⟨y, ys, rfl, ?_⟩
          simp only [noRun, Bool.and_eq_true, Bool.not_eq_true'] at hrun
          rcases Bool.and_eq_false_iff.mp hrun.1 with h1 | h2
          · rw [h1] at hx; cases hx
          · exact h2
      simp only [collapseHyAux, if_pos hx, if_neg Bool.false_ne_true, hxs]
      rw [ih (fun c hc => hmem c (List.mem_cons_of_mem _ hc)) (noRun_tail hrun),
        hdash]
    · simp only [collapseHyAux, if_neg hx]
      rw [ih (fun c hc => hmem c (List.mem_cons_of_mem _ hc)) (noRun_tail hrun)]

theorem noRun_take : ∀ (l : List Char) (n : Nat),
    noRun l = true → noRun (l.take n) = true
  | [], n, _ => by simp [noRun]
  | [a], n, _ => by cases n <;> simp [noRun, List.take]
  | a :: b :: rest, 0, _ => by simp [noRun]
  | a :: b :: rest, 1, _ => by simp [noRun, List.take]
  | a :: b :: rest, Nat.succ (Nat.succ k), h => by
    simp only [noRun, Bool.and_eq_true] at h
    have htail : noRun ((b :: rest).take (Nat.succ k)) = true :=
      noRun_take (b :: rest) (Nat.succ k) h.2
    simp only [List.take]
    simp only [noRun, Bool.and_eq_true]
    refine ⟨h.1, ?_⟩
    simpa [List.take] using htail

theorem mapFixed {l : List Char} {f : Char → Char}
    (h : ∀ c ∈ l, f c = c) : l.map f = l := by
  induction l with
  | nil => rfl
  | cons x xs ih =>
    simp only [List.map_cons]
    rw [h x (List.mem_cons_self _ _), ih (fun c hc => h c (List.mem_cons_of_mem _ hc))]

/-! #### Properties of every slug character -/

theorem mem_generate_slug {c : Char} {title : List Char}
    (h : c ∈ generate_slug title) :
    c = '-' ∨ (c ∈ (title.map Char.toLower).filter isKeepCh ∧ isHyWs c = false) := by
  unfold generate_slug at h
  exact mem_collapseHyAux false _ (List.take_subset _ _ h)

theorem slug_char_lower {c : Char} {title : List Char}
    (h : c ∈ generate_slug title) : Char.toLower c = c := by
  rcases mem_generate_slug h with h1 | ⟨h2, _⟩
  · subst h1; decide
  · obtain ⟨h3, _⟩ := List.mem_filter.mp h2
    obtain ⟨c0, _, hc0⟩ := List.mem_map.mp h3
    rw [← hc0]
    exact toLower_idem c0

theorem slug_char_keep {c : Char} {title : List Char}
    (h : c ∈ generate_slug title) : isKeepCh c = true := by
  rcases mem_generate_slug h with h1 | ⟨h2, _⟩
  · subst h1; decide
  · exact (List.mem_filter.mp h2).2

theorem slug_char_hyws {c : Char} {title : List Char}
    (h : c ∈ generate_slug title) : isHyWs c = false ∨ c = '-' := by
  rcases mem_generate_slug h with h1 | ⟨_, h3⟩
  · exact Or.inr h1
  · exact Or.inl h3

theorem noRun_generate_slug (title : List Char) :
    noRun (generate_slug title) = true :=
  noRun_take _ 50 (noRun_collapseHyAux _ false)

theorem generate_slug_length_le (title : List Char) :
    (generate_slug title).length ≤ 50 := by
  simp [generate_slug, List.length_take_le]

/-- C8: the slug function is idempotent and its output never exceeds
50 characters. -/
theorem generate_slug_idempotent (title : List Char) :
    generate_slug (generate_slug title) = generate_slug title ∧
      (generate_slug title).length ≤ 50 := by
  refine ⟨?_, generate_slug_length_le title⟩
  have hmap : (generate_slug title).map Char.toLower = generate_slug title :=
    mapFixed (fun c hc => slug_char_lower hc)
  have hfil : (generate_slug title).filter isKeepCh = generate_slug title :=
    List.filter_eq_self.mpr (fun c hc => slug_char_keep hc)
  have hid : collapseHyAux false (generate_slug title) = generate_slug title :=
    collapseHyAux_id _ (fun c hc => slug_char_hyws hc) (noRun_generate_slug title)
  calc generate_slug (generate_slug title)
      = (collapseHyAux false (generate_slug title)).take 50 := by
        rw [generate_slug, hmap, hfil]
    _ = (generate_slug title).take 50 := by rw [hid]
    _ = generate_slug title :=
        List.take_of_length_le (generate_slug_length_le title)

/-- Sanity check of the slug model on a concrete title. -/
theorem generate_slug_example :
    generate_slug (String.toList "Hello, World!  Again") =
      String.toList "hello-world-again" := by decide

/-! ### `validate_date` (`app.py` lines 51-63)

`datetime.strptime` is modelled after CPython `_strptime.TimeRE`:
`%Y` is exactly four digits, `%m` is `1[0-2]|0[1-9]|[1-9]`, and `%d` is
`3[0-1]|[1-2]\d|0[1-9]|[1-9]| [1-9]` (note the space-then-digit
alternative).  The whole string must be consumed, and the parsed values
must form a real calendar date with year in 1..9999. -/

/-- `%Y`: exactly four decimal digits. -/
def parseYear4 : List Char → Option (Nat × List Char)
  | a :: b :: c :: d :: rest =>
    if isDigitCh a && isDigitCh b && isDigitCh c && isDigitCh d then
      some (1000 * digitVal a + 100 * digitVal b + 10 * digitVal c + digitVal d,
        rest)
    else none
  | _ => none

/-- `%m`: regex `1[0-2]|0[1-9]|[1-9]`, alternatives tried in order. -/
def parseMonth : List Char → Option (Nat × List Char)
  | [] => none
  | c1 :: rest1 =>
    match rest1 with
    | c2 :: rest2 =>
      if c1 = '1' && (c2 = '0' || c2 = '1' || c2 = '2') then
        some (10 + digitVal c2, rest2)
      else if c1 = '0' && isDigitCh c2 && c2 ≠ '0' then
        some (digitVal c2, rest2)
      else if isDigitCh c1 && c1 ≠ '0' then
        some (digitVal c1, c2 :: rest2)
      else none
    | [] => if isDigitCh c1 && c1 ≠ '0' then some (digitVal c1, []) else none

/-- `%d`: regex `3[0-1]|[1-2]\d|0[1-9]|[1-9]| [1-9]`, in order. -/
def parseDay : List Char → Option (Nat × List Char)
  | [] => none
  | c1 :: rest1 =>
    match rest1 with
    | c2 :: rest2 =>
      if c1 = '3' && (c2 = '0' || c2 = '1') then
        some (30 + digitVal c2, rest2)
      else if (c1 = '1' || c1 = '2') && isDigitCh c2 then
        some (10 * digitVal c1 + digitVal c2, rest2)
      else if c1 = '0' && isDigitCh c2 && c2 ≠ '0' then
        some (digitVal c2, rest2)
      else if isDigitCh c1 && c1 ≠ '0' then
        some (digitVal c1, c2 :: rest2)
      else if c1 = ' ' && isDigitCh c2 && c2 ≠ '0' then
        some (digitVal c2, rest2)
      else none
    | [] => if isDigitCh c1 && c1 ≠ '0' then some (digitVal c1, []) else none

/-- A literal character of the format string. -/
def expectCh (c : Char) : List Char → Option (List Char)
  | x :: rest => if x = c then some rest else none
  | [] => none

/-- Gregorian leap-year rule, as used by `datetime`. -/
def isLeap (y : Nat) : Bool :=
  (y % 4 == 0 && !(y % 100 == 0)) || y % 400 == 0

/-- Number of days in a month. -/
def daysInMonth (y m : Nat) : Nat :=
  if m = 2 then (if isLeap y then 29 else 28)
  else if m = 4 || m = 6 || m = 9 || m = 11 then 30
  else 31

/-- `datetime(year, month, day)` constructor validity. -/
def validYMD (y m d : Nat) : Bool :=
  1 ≤ y && y ≤ 9999 && 1 ≤ m && m ≤ 12 && 1 ≤ d && d ≤ daysInMonth y m

/-- A parsed calendar date. -/
structure PyDate where
  year : Nat
  month : Nat
  day : Nat
deriving DecidableEq

/-- `datetime.strptime(s, '%Y-%m-%d')`. -/
def strptimeYMD (s : List Char) : Option PyDate :=
  match parseYear4 s with
  | none => none
  | some (y, r1) =>
    match expectCh '-' r1 with
    | none => none
    | some r2 =>
      match parseMonth r2 with
      | none => none
      | some (m, r3) =>
        match expectCh '-' r3 with
        | none => none
        | some r4 =>
          match parseDay r4 with
          | none => none
          | some (d, r5) =>
            if r5.isEmpty && validYMD y m d then some ⟨y, m, d⟩ else none

/-- `datetime.strptime(s, '%d-%m-%Y')`. -/
def strptimeDMY (s : List Char) : Option PyDate :=
  match parseDay s with
  | none => none
  | some (d, r1) =>
    match expectCh '-' r1 with
    | none => none
    | some r2 =>
      match parseMonth r2 with
      | none => none
      | some (m, r3) =>
        match expectCh '-' r3 with
        | none => none
        | some r4 =>
          match parseYear4 r4 with
          | none => none
          | some (y, r5) =>
            if r5.isEmpty && validYMD y m d then some ⟨y, m, d⟩ else none

/-- `datetime.strptime(s, '%m/%d/%Y')`. -/
def strptimeMDY (s : List Char) : Option PyDate :=
  match parseMonth s with
  | none => none
  | some (m, r1) =>
    match expectCh '/' r1 with
    | none => none
    | some r2 =>
      match parseDay r2 with
      | none => none
      | some (d, r3) =>
        match expectCh '/' r3 with
        | none => none
        | some r4 =>
          match parseYear4 r4 with
          | none => none
          | some (y, r5) =>
            if r5.isEmpty && validYMD y m d then some ⟨y, m, d⟩ else none

/-- Decimal digits of a natural number. -/
def natDigits (n : Nat) : List Char :=
  Nat.toDigits 10 n

/-- `%d` / `%m` in `strftime`: zero-padded to two digits. -/
def pad2 (n : Nat) : List Char :=
  if n < 10 then '0' :: natDigits n else natDigits n

/-- `date_obj.strftime('%d-%m-%Y')`. -/
def fmtDMY (dt : PyDate) : List Char :=
  pad2 dt.day ++ '-' :: pad2 dt.month ++ '-' :: natDigits dt.year

/-- `validate_date` (`app.py`): try `%Y-%m-%d`, `%d-%m-%Y`, `%m/%d/%Y`
in that order; re-emit the first successful parse as `%d-%m-%Y`;
return `None` when all three fail. -/
def validate_date (s : List Char) : Option (List Char) :=
  match strptimeYMD s with
  | some dt => some (fmtDMY dt)
  | none =>
    match strptimeDMY s with
    | some dt => some (fmtDMY dt)
    | none =>
      match strptimeMDY s with
      | some dt => some (fmtDMY dt)
      | none => none

/-- C2: date normalization tries the three formats in order, re-emits
the first successful parse in canonical `DD-MM-YYYY` form, fails with
`none` when none parse, and maps the spec's four examples as stated. -/
theorem validate_date_normalizes :
    (∀ s : List Char,
      validate_date s =
        ((strptimeYMD s).or ((strptimeDMY s).or (strptimeMDY s))).map fmtDMY) ∧
    validate_date (String.toList "2024-01-15") = some (String.toList "15-01-2024") ∧
    validate_date (String.toList "15-01-2024") = some (String.toList "15-01-2024") ∧
    validate_date (String.toList "01/15/2024") = some (String.toList "15-01-2024") ∧
    validate_date (String.toList "not-a-date") = none := by
  refine ⟨?_, by decide, by decide, by decide, by decide⟩
  intro s
  unfold validate_date
  cases strptimeYMD s <;> cases strptimeDMY s <;> cases strptimeMDY s <;> rfl

/-! ### `Blog.formatted_date` (`models/blog.py` lines 137-146)

`day, month, year = self.date.split('-')` then
`datetime(int(year), int(month), int(day)).strftime('%B %d, %Y')`,
with a bare `except` falling back to the raw stored string. -/

/-- Digits of a Python `int()` literal after the first one: single
underscores are allowed between digits. -/
def udigitsAux : Nat → List Char → Option Nat
  | acc, [] => some acc
  | acc, '_' :: c :: rest =>
    if isDigitCh c then udigitsAux (10 * acc + digitVal c) rest else none
  | _, ['_'] => none
  | acc, c :: rest =>
    if isDigitCh c then udigitsAux (10 * acc + digitVal c) rest else none

/-- A nonempty digit string with single underscores between digits. -/
def parseUDigits : List Char → Option Nat
  | c :: rest => if isDigitCh c then udigitsAux (digitVal c) rest else none
  | [] => none

/-- Strip leading and trailing whitespace (Python `str.strip()`). -/
def trimWs (s : List Char) : List Char :=
  ((s.dropWhile isPySpace).reverse.dropWhile isPySpace).reverse

/-- Python `int(s)` on a string: optional surrounding whitespace, an
optional sign, then underscore-grouped digits. -/
def pyInt (s : List Char) : Option Int :=
  match trimWs s with
  | '+' :: rest => (parseUDigits rest).map (fun n => (n : Int))
  | '-' :: rest => (parseUDigits rest).map (fun n => -(n : Int))
  | rest => (parseUDigits rest).map (fun n => (n : Int))

/-- `strftime('%B')`: full English month name. -/
def monthName : Nat → List Char
  | 1 => String.toList "January"
  | 2 => String.toList "February"
  | 3 => String.toList "March"
  | 4 => String.toList "April"
  | 5 => String.toList "May"
  | 6 => String.toList "June"
  | 7 => String.toList "July"
  | 8 => String.toList "August"
  | 9 => String.toList "September"
  | 10 => String.toList "October"
  | 11 => String.toList "November"
  | 12 => String.toList "December"
  | _ => []

/-- The success condition of `formatted_date`: exactly three
`'-'`-separated fields, each accepted by `int()`, forming a valid
`datetime(year, month, day)`. -/
def parseStoredDate (date : List Char) : Option (Int × Int × Int) :=
  match date.splitOn '-' with
  | [ds, ms, ys] =>
    match pyInt ds, pyInt ms, pyInt ys with
    | some d, some m, some y =>
      if 1 ≤ y && y ≤ 9999 && 1 ≤ m && m ≤ 12 && 1 ≤ d &&
          d ≤ (daysInMonth y.toNat m.toNat : Int) then
        some (d, m, y)
      else none
    | _, _, _ => none
  | _ => none

/-- `strftime('%B %d, %Y')`: month name, zero-padded day, full year. -/
def renderLong (d m y : Int) : List Char :=
  monthName m.toNat ++ ' ' :: pad2 d.toNat ++ ',' :: ' ' :: natDigits y.toNat

/-- `Blog.formatted_date`: a total function — render the parsed date,
or echo the raw stored string when parsing fails. -/
def formatted_date (date : List Char) : List Char :=
  match parseStoredDate date with
  | some (d, m, y) => renderLong d m y
  | none => date

/-- C9: display formatting either renders a parsed `DD-MM-YYYY` date as
month-name, zero-padded day, full year, or returns the raw stored
string unchanged when parsing fails; being a total function of the
stored string, it never raises and never produces anything else. -/
theorem formatted_date_total :
    (∀ date : List Char,
      (∃ d m y, parseStoredDate date = some (d, m, y) ∧
        formatted_date date = renderLong d m y) ∨
      (parseStoredDate date = none ∧ formatted_date date = date)) ∧
    formatted_date (String.toList "05-01-2024") =
      String.toList "January 05, 2024" ∧
    formatted_date (String.toList "not-a-date") =
      String.toList "not-a-date" := by
  refine ⟨?_, by decide, by decide⟩
  intro date
  cases h : parseStoredDate date with
  | some t =>
    obtain ⟨d, m, y⟩ := t
    exact Or.inl ⟨d, m, y, rfl, by simp [formatted_date, h]⟩
  | none => exact Or.inr ⟨rfl, by simp [formatted_date, h]⟩

/-! ### The relational store

`authors` and `blogs` tables as lists of rows, in storage (rowid)
order.  `next_author_id` / `next_blog_id` model the autoincrement
primary keys; a new blog's `created_at` timestamp is modelled by the
monotone insertion counter. -/

/-- A row of the `authors` table. -/
structure AuthorRow where
  id : Nat
  name : List Char
  email : List Char
deriving DecidableEq

/-- A row of the `blogs` table. -/
structure BlogRow where
  id : Nat
  title : List Char
  content : List Char
  date : List Char
  slug : List Char
  excerpt : List Char
  featured : Bool
  published : Bool
  view_count : Int
  like_count : Int
  author_id : Nat
  created_at : Nat
deriving DecidableEq

/-- The committed state of the SQLite store. -/
structure DB where
  authors : List AuthorRow
  blogs : List BlogRow
  next_author_id : Nat
  next_blog_id : Nat
deriving DecidableEq

/-! ### Lexicographic (bytewise) string order, SQLite BINARY collation -/

/-- `x ≤ y` bytewise (SQLite's default BINARY collation on text). -/
def strLe : List Char → List Char → Bool
  | [], _ => true
  | _ :: _, [] => false
  | c :: cs, d :: ds => c.toNat < d.toNat || (c.toNat = d.toNat && strLe cs ds)

theorem strLe_total : ∀ x y : List Char, strLe x y = true ∨ strLe y x = true
  | [], _ => Or.inl rfl
  | _ :: _, [] => Or.inr rfl
  | c :: cs, d :: ds => by
    simp only [strLe, Bool.or_eq_true, Bool.and_eq_true, decide_eq_true_eq]
    rcases Nat.lt_trichotomy c.toNat d.toNat with h | h | h
    · exact Or.inl (Or.inl h)
    · rcases strLe_total cs ds with h2 | h2
      · exact Or.inl (Or.inr ⟨h, h2⟩)
      · exact Or.inr (Or.inr ⟨h.symm, h2⟩)
    · exact Or.inr (Or.inl h)

theorem strLe_trans : ∀ x y z : List Char,
    strLe x y = true → strLe y z = true → strLe x z = true
  | [], _, _, _, _ => rfl
  | _ :: _, [], _, h, _ => by simp [strLe] at h
  | _ :: _, _ :: _, [], _, h => by simp [strLe] at h
  | c :: cs, d :: ds, e :: es, h1, h2 => by
    simp only [strLe, Bool.or_eq_true, Bool.and_eq_true, decide_eq_true_eq]
      at h1 h2 ⊢
    rcases h1 with h1 | ⟨h1e, h1r⟩ <;> rcases h2 with h2 | ⟨h2e, h2r⟩
    · exact Or.inl (by omega)
    · exact Or.inl (by omega)
    · exact Or.inl (by omega)
    · exact Or.inr ⟨by omega, strLe_trans cs ds es h1r h2r⟩

/-! ### `/blogs` query composition (`app.py` lines 97-128) -/

/-- Name of the blog's joined author row (used by the `author` sort). -/
def authorName (authors : List AuthorRow) (b : BlogRow) : List Char :=
  match authors.find? (fun a => a.id == b.author_id) with
  | some a => a.name
  | none => []

/-- Does `l` begin with `pat`? -/
def startsWithL : List Char → List Char → Bool
  | [], _ => true
  | _ :: _, [] => false
  | c :: cs, d :: ds => c = d && startsWithL cs ds

/-- Substring containment: SQLAlchemy `.contains(pat)`,
i.e. SQL `LIKE '%pat%'`. -/
def containsSub (pat : List Char) : List Char → Bool
  | [] => startsWithL pat []
  | c :: cs => startsWithL pat (c :: cs) || containsSub pat cs

/-- The `/blogs` search predicate (`app.py` lines 110-116):
`Blog.title.contains(search)` OR `Blog.content.contains(search)` OR
`Blog.author.has(Author.name.contains(search))`. -/
def searchMatches (authors : List AuthorRow) (search : List Char)
    (b : BlogRow) : Bool :=
  containsSub search b.title || containsSub search b.content ||
    authors.any (fun a => a.id == b.author_id && containsSub search a.name)

/-- The `/blogs` sort dispatch (`app.py` lines 118-126).  `ORDER BY` is
modelled as a stable sort of the rows in storage order; the `author`
branch joins the author table (dropping blogs with no matching author)
and orders by author name. -/
def applySort (sortBy : String) (authors : List AuthorRow)
    (q : List BlogRow) : List BlogRow :=
  if sortBy = "oldest" then
    q.insertionSort (fun a b => a.id ≤ b.id)
  else if sortBy = "title" then
    q.insertionSort (fun a b => strLe a.title b.title = true)
  else if sortBy = "author" then
    (q.filter (fun b => authors.any (fun a => a.id == b.author_id))).insertionSort
      (fun a b => strLe (authorName authors a) (authorName authors b) = true)
  else
    q.insertionSort (fun a b => b.id ≤ a.id)

/-- The `/blogs` route: optional search filter, then sort. -/
def blogsQuery (search : List Char) (sortBy : String) (db : DB) : List BlogRow :=
  applySort sortBy db.authors
    (if search.isEmpty then db.blogs
     else db.blogs.filter (searchMatches db.authors search))

/-- C4: `newest` orders by id descending, `oldest` by id ascending,
`title` by title ascending, `author` joins the author table and orders
by author name ascending, and every unrecognized sort value falls back
to the `newest` ordering.  Each branch returns a permutation of its
input (the `author` branch: of the join). -/
theorem blogs_sort_mapping (authors : List AuthorRow) (q : List BlogRow) :
    List.Sorted (fun a b : BlogRow => b.id ≤ a.id)
      (applySort "newest" authors q) ∧
    List.Perm (applySort "newest" authors q) q ∧
    List.Sorted (fun a b : BlogRow => a.id ≤ b.id)
      (applySort "oldest" authors q) ∧
    List.Perm (applySort "oldest" authors q) q ∧
    List.Sorted (fun a b : BlogRow => strLe a.title b.title = true)
      (applySort "title" authors q) ∧
    List.Perm (applySort "title" authors q) q ∧
    List.Sorted
      (fun a b : BlogRow =>
        strLe (authorName authors a) (authorName authors b) = true)
      (applySort "author" authors q) ∧
    List.Perm (applySort "author" authors q)
      (q.filter (fun b => authors.any (fun a => a.id == b.author_id))) ∧
    (∀ s : String, s ≠ "oldest" → s ≠ "title" → s ≠ "author" →
      applySort s authors q = applySort "newest" authors q) := by
  have hnew : applySort "newest" authors q =
      q.insertionSort (fun a b : BlogRow => b.id ≤ a.id) := by
    unfold applySort
    rw [if_neg (by decide), if_neg (by decide), if_neg (by decide)]
  have hold : applySort "oldest" authors q =
      q.insertionSort (fun a b : BlogRow => a.id ≤ b.id) := by
    unfold applySort
    rw [if_pos (by decide)]
  have htit : applySort "title" authors q =
      q.insertionSort (fun a b : BlogRow => strLe a.title b.title = true) := by
    unfold applySort
    rw [if_neg (by decide), if_pos (by decide)]
  have haut : applySort "author" authors q =
      (q.filter (fun b => authors.any (fun a => a.id == b.author_id))).insertionSort
        (fun a b => strLe (authorName authors a) (authorName authors b) = true) := by
    unfold applySort
    rw [if_neg (by decide), if_neg (by decide), if_pos (by decide)]
  refine ⟨?_, ?_, ?_, ?_, ?_, ?_, ?_, ?_, ?_⟩
  · haveI : IsTotal BlogRow (fun a b => b.id ≤ a.id) :=
      ⟨fun a b => Nat.le_total b.id a.id⟩
    haveI : IsTrans BlogRow (fun a b => b.id ≤ a.id) :=
      ⟨fun _ _ _ hab hbc => Nat.le_trans hbc hab⟩
    rw [hnew]; exact List.sorted_insertionSort _ q
  · rw [hnew]; exact List.perm_insertionSort _ q
  · haveI : IsTotal BlogRow (fun a b => a.id ≤ b.id) :=
      ⟨fun a b => Nat.le_total a.id b.id⟩
    haveI : IsTrans BlogRow (fun a b => a.id ≤ b.id) :=
      ⟨fun _ _ _ hab hbc => Nat.le_trans hab hbc⟩
    rw [hold]; exact List.sorted_insertionSort _ q
  · rw [hold]; exact List.perm_insertionSort _ q
  · haveI : IsTotal BlogRow (fun a b => strLe a.title b.title = true) :=
      ⟨fun a b => strLe_total a.title b.title⟩
    haveI : IsTrans BlogRow (fun a b => strLe a.title b.title = true) :=
      ⟨fun _ _ _ hab hbc => strLe_trans _ _ _ hab hbc⟩
    rw [htit]; exact List.sorted_insertionSort _ q
  · rw [htit]; exact List.perm_insertionSort _ q
  · haveI : IsTotal BlogRow
        (fun a b => strLe (authorName authors a) (authorName authors b) = true) :=
      ⟨fun a b => strLe_total _ _⟩
    haveI : IsTrans BlogRow
        (fun a b => strLe (authorName authors a) (authorName authors b) = true) :=
      ⟨fun _ _ _ hab hbc => strLe_trans _ _ _ hab hbc⟩
    rw [haut]; exact List.sorted_insertionSort _ _
  · rw [haut]; exact List.perm_insertionSort _ _
  · intro s hs1 hs2 hs3
    unfold applySort
    rw [if_neg hs1, if_neg hs2, if_neg hs3,
      if_neg (by decide : ¬("newest" : String) = "oldest"),
      if_neg (by decide : ¬("newest" : String) = "title"),
      if_neg (by decide : ¬("newest" : String) = "author")]

/-- Witness for C4: a concrete unrecognized sort value falls back to
the `newest` ordering. -/
theorem blogs_sort_mapping_witness :
    applySort "popular" [] [] =
      applySort "newest" ([] : List AuthorRow) ([] : List BlogRow) :=
  (blogs_sort_mapping [] []).2.2.2.2.2.2.2.2 "popular"
    (by decide) (by decide) (by decide)

/-- C5: for a non-empty search string the filter selects exactly the
blogs whose title, content, or related author's name contains the
substring; and the predicate never inspects the derived excerpt (it is
invariant under replacing the excerpt). -/
theorem search_filter_spec (db : DB) (search : List Char) (h : search ≠ []) :
    (∀ b : BlogRow,
      b ∈ blogsQuery search "newest" db ↔
        b ∈ db.blogs ∧
          (containsSub search b.title = true ∨
            containsSub search b.content = true ∨
            ∃ a ∈ db.authors, a.id = b.author_id ∧
              containsSub search a.name = true)) ∧
    (∀ (b : BlogRow) (e : List Char),
      searchMatches db.authors search b =
        searchMatches db.authors search
          { b with excerpt := e }) := by
  constructor
  · intro b
    have hne : search.isEmpty = false := by
      cases search with
      | nil => exact absurd rfl h
      | cons c cs => rfl
    have hq : blogsQuery search "newest" db =
        (db.blogs.filter (searchMatches db.authors search)).insertionSort
          (fun a b : BlogRow => b.id ≤ a.id) := by
      unfold blogsQuery applySort
      rw [hne]
      rw [if_neg (by decide), if_neg (by decide), if_neg (by decide)]
      rfl
    rw [hq]
    rw [(List.perm_insertionSort _ _).mem_iff, List.mem_filter]
    simp only [searchMatches, Bool.or_eq_true, List.any_eq_true,
      Bool.and_eq_true, beq_iff_eq]
    constructor
    · rintro ⟨hb, hor⟩
      refine ⟨hb, ?_⟩
      rcases hor with (h1 | h2) | h3
      · exact Or.inl h1
      · exact Or.inr (Or.inl h2)
      · obtain ⟨a, ha, hid, hc⟩ := h3
        exact Or.inr (Or.inr ⟨a, ha, hid, hc⟩)
    · rintro ⟨hb, hor⟩
      refine ⟨hb, ?_⟩
      rcases hor with h1 | h2 | ⟨a, ha, hid, hc⟩
      · exact Or.inl (Or.inl h1)
      · exact Or.inl (Or.inr h2)
      · exact Or.inr ⟨a, ha, hid, hc⟩
  · intro b e
    rfl

/-- A concrete author and blog for the search examples: the token
`lic` occurs only in the author's name, never in the blog's title or
content. -/
def aliceRow : AuthorRow :=
  ⟨1, String.toList "Alice", String.toList "alice@example.com"⟩

/-- A blog by that author whose generated excerpt ends in `...` --
content the search predicate must not match when searching for dots. -/
def teaBlog : BlogRow :=
  ⟨1, String.toList "Tea time", String.toList "leaves and water",
    String.toList "15-01-2024", String.toList "tea-time",
    String.toList "leaves and water", false, true, 0, 0, 1, 1⟩

/-- Witness for C5 at a concrete store: the characterization holds at a
search string occurring only in the author's name. -/
theorem search_filter_spec_witness :
    teaBlog ∈ blogsQuery (String.toList "lic") "newest"
        (DB.mk [aliceRow] [teaBlog] 2 2) ↔
      teaBlog ∈ [teaBlog] ∧
        (containsSub (String.toList "lic") teaBlog.title = true ∨
          containsSub (String.toList "lic") teaBlog.content = true ∨
          ∃ a ∈ [aliceRow], a.id = teaBlog.author_id ∧
            containsSub (String.toList "lic") a.name = true) :=
  (search_filter_spec (DB.mk [aliceRow] [teaBlog] 2 2)
    (String.toList "lic") (by decide)).1 teaBlog

/-- Sanity check: a substring present only in the author's name still
returns that author's blog from the search. -/
theorem search_author_name_example :
    teaBlog ∈ blogsQuery (String.toList "lic") "newest"
      (DB.mk [aliceRow] [teaBlog] 2 2) := by decide

/-! ### Related-blogs queries

Two distinct queries exist in the source:
`Blog.get_related_blogs` (`models/blog.py` lines 196-202) orders by
`created_at` descending and filters to published posts, while the
inline query actually used by the `view_blog` route (`app.py` lines
243-246) applies no ordering (and no published filter) at all. -/

/-- `Blog.get_related_blogs`: same author, excluding the current post,
published only, `ORDER BY created_at DESC`, `LIMIT limit`.  `ORDER BY`
is modelled as a stable sort of storage order (SQL guarantees nothing
about the relative order of ties). -/
def get_related_blogs (db : DB) (blog : BlogRow) (limit : Nat) : List BlogRow :=
  ((db.blogs.filter (fun x =>
      x.author_id == blog.author_id && x.id != blog.id && x.published)).insertionSort
    (fun a b : BlogRow => b.created_at ≤ a.created_at)).take limit

/-- The `view_blog` route's inline related query: same author,
excluding the current id, `LIMIT 3`, with no `ORDER BY`. -/
def view_blog_related (db : DB) (blog_id : Nat) (blog : BlogRow) : List BlogRow :=
  (db.blogs.filter (fun x =>
    x.author_id == blog.author_id && x.id != blog_id)).take 3

/-- A minimal published blog row: id, author id and creation time. -/
def relBlog (i aid ts : Nat) : BlogRow :=
  ⟨i, [], [], [], [], [], false, true, 0, 0, aid, ts⟩

/-- Store for the related-blogs counterexample: the target post (id 1)
plus four more posts by author 7 whose creation times increase with
their ids. -/
def dbRel : DB :=
  ⟨[], [relBlog 1 7 100, relBlog 2 7 10, relBlog 3 7 20,
    relBlog 4 7 30, relBlog 5 7 40], 1, 6⟩

/-- C6 counterexample: the related-blogs query the `view_blog` route
actually runs applies no ordering — here it returns the three *oldest*
sibling posts in storage order (creation times 10, 20, 30, while a
post with time 40 exists), so its output is not ordered
most-recent-created first. -/
theorem view_blog_related_unordered :
    view_blog_related dbRel 1 (relBlog 1 7 100) =
      [relBlog 2 7 10, relBlog 3 7 20, relBlog 4 7 30] ∧
    ¬ List.Pairwise (fun a b : BlogRow => b.created_at ≤ a.created_at)
      (view_blog_related dbRel 1 (relBlog 1 7 100)) := by
  constructor
  · decide
  · decide

/-- C6 (amended): both related-blogs queries return at most 3 blogs,
all by the same author and excluding the current post;
`Blog.get_related_blogs` additionally filters to published posts and
orders by `created_at` descending (ties in storage order), while the
`view_blog` route's inline query applies no ordering at all. -/
theorem related_blogs_props (db : DB) (blog : BlogRow) (blog_id : Nat) :
    (get_related_blogs db blog 3).length ≤ 3 ∧
    (∀ x ∈ get_related_blogs db blog 3,
      x.author_id = blog.author_id ∧ x.id ≠ blog.id ∧ x.published = true) ∧
    List.Sorted (fun a b : BlogRow => b.created_at ≤ a.created_at)
      (get_related_blogs db blog 3) ∧
    (view_blog_related db blog_id blog).length ≤ 3 ∧
    (∀ x ∈ view_blog_related db blog_id blog,
      x.author_id = blog.author_id ∧ x.id ≠ blog_id) := by
  refine ⟨?_, ?_, ?_, ?_, ?_⟩
  · exact List.length_take_le 3 _
  · intro x hx
    have hx2 := List.take_subset _ _ hx
    rw [(List.perm_insertionSort _ _).mem_iff, List.mem_filter] at hx2
    have := hx2.2
    simp only [Bool.and_eq_true, beq_iff_eq, bne_iff_ne] at this
    exact ⟨this.1.1, this.1.2, this.2⟩
  · haveI : IsTotal BlogRow (fun a b => b.created_at ≤ a.created_at) :=
      ⟨fun a b => Nat.le_total b.created_at a.created_at⟩
    haveI : IsTrans BlogRow (fun a b => b.created_at ≤ a.created_at) :=
      ⟨fun _ _ _ hab hbc => Nat.le_trans hbc hab⟩
    exact (List.sorted_insertionSort _ _).sublist (List.take_sublist _ _)
  · exact List.length_take_le 3 _
  · intro x hx
    have hx2 := List.take_subset _ _ hx
    rw [List.mem_filter] at hx2
    have := hx2.2
    simp only [Bool.and_eq_true, beq_iff_eq, bne_iff_ne] at this
    exact this

/-- Witness for the amended C6 at the concrete store. -/
theorem related_blogs_props_witness :
    (get_related_blogs dbRel (relBlog 1 7 100) 3).length ≤ 3 ∧
    List.Sorted (fun a b : BlogRow => b.created_at ≤ a.created_at)
      (get_related_blogs dbRel (relBlog 1 7 100) 3) :=
  ⟨(related_blogs_props dbRel (relBlog 1 7 100) 1).1,
   (related_blogs_props dbRel (relBlog 1 7 100) 1).2.2.1⟩

/-! ### Counter mutations (`models/blog.py` lines 180-194)

Each mutation updates the row and commits immediately; the commit is
modelled by returning the updated row. -/

/-- `Blog.increment_view_count`: unconditional `+ 1`. -/
def increment_view_count (b : BlogRow) : BlogRow :=
  { b with view_count := b.view_count + 1 }

/-- `Blog.increment_like_count`: unconditional `+ 1`. -/
def increment_like_count (b : BlogRow) : BlogRow :=
  { b with like_count := b.like_count + 1 }

/-- `Blog.decrement_like_count`: `- 1` guarded by `like_count > 0`,
otherwise a no-op. -/
def decrement_like_count (b : BlogRow) : BlogRow :=
  if 0 < b.like_count then { b with like_count := b.like_count - 1 } else b

/-- C7: every counter mutation preserves non-negativity of both
counters; the decrement subtracts 1 exactly when the current value is
positive and is a no-op at 0. -/
theorem counter_mutations_nonneg (b : BlogRow)
    (hv : 0 ≤ b.view_count) (hl : 0 ≤ b.like_count) :
    (0 ≤ (increment_view_count b).view_count ∧
      0 ≤ (increment_view_count b).like_count) ∧
    (0 ≤ (increment_like_count b).view_count ∧
      0 ≤ (increment_like_count b).like_count) ∧
    (0 ≤ (decrement_like_count b).view_count ∧
      0 ≤ (decrement_like_count b).like_count) ∧
    (0 < b.like_count →
      (decrement_like_count b).like_count = b.like_count - 1) ∧
    (b.like_count = 0 → decrement_like_count b = b) := by
  unfold increment_view_count increment_like_count decrement_like_count
  by_cases h : 0 < b.like_count
  · rw [if_pos h]
    dsimp only
    refine ⟨⟨by omega, hl⟩, ⟨hv, by omega⟩, ⟨hv, by omega⟩, fun _ => rfl, ?_⟩
    intro h0; omega
  · rw [if_neg h]
    dsimp only
    exact ⟨⟨by omega, hl⟩, ⟨hv, by omega⟩, ⟨hv, hl⟩, fun h1 => absurd h1 h,
      fun _ => rfl⟩

/-- Witness for C7: incrementing a fresh row keeps the view counter
non-negative, and decrementing at `like_count = 0` is a no-op. -/
theorem counter_mutations_nonneg_witness :
    0 ≤ (increment_view_count (relBlog 9 1 0)).view_count ∧
      decrement_like_count (relBlog 9 1 0) = relBlog 9 1 0 :=
  ⟨(counter_mutations_nonneg (relBlog 9 1 0) (by decide) (by decide)).1.1,
   (counter_mutations_nonneg (relBlog 9 1 0) (by decide) (by decide)).2.2.2.2
     (by decide)⟩

/-! ### The `add_blog` route (`app.py` lines 149-234)

The route performs *two separate commits*: the author
lookup-or-create (lines 200-211) commits first, then the blog insert
(lines 214-222) commits.  The `except` handler's
`db.session.rollback()` can only undo the uncommitted work of the
failing unit — a commit that already succeeded stays durable. -/

/-- Character class `[a-zA-Z0-9._%+-]` of the email regex's local part. -/
def isLocalCh (c : Char) : Bool :=
  ('a' ≤ c && c ≤ 'z') || ('A' ≤ c && c ≤ 'Z') || isDigitCh c ||
    c = '.' || c = '_' || c = '%' || c = '+' || c = '-'

/-- Character class `[a-zA-Z0-9.-]` of the email regex's domain part. -/
def isDomainCh (c : Char) : Bool :=
  ('a' ≤ c && c ≤ 'z') || ('A' ≤ c && c ≤ 'Z') || isDigitCh c || c = '.' || c = '-'

/-- ASCII letter. -/
def isAlphaCh (c : Char) : Bool :=
  ('a' ≤ c && c ≤ 'z') || ('A' ≤ c && c ≤ 'Z')

/-- `[a-zA-Z0-9.-]+\.[a-zA-Z]\x7b2,\x7d$` applied to the part after
`@`: some dot splits it into a nonempty domain and a trailing run of
at least two letters. -/
def emailDomainOk (rest : List Char) : Bool :=
  (List.range rest.length).any (fun i =>
    !(rest.take i).isEmpty && (rest.take i).all isDomainCh &&
      (match rest.drop i with
       | '.' :: t => decide (2 ≤ t.length) && t.all isAlphaCh
       | _ => false))

/-- `validate_email` (`app.py` lines 46-49): full-string match of
`^[a-zA-Z0-9._%+-]+@[a-zA-Z0-9.-]+\.[a-zA-Z]\x7b2,\x7d$`.  The classes
exclude `@`, so the string must contain exactly one `@`. -/
def validate_email (s : List Char) : Bool :=
  match s.splitOn '@' with
  | [loc, rest] => !loc.isEmpty && loc.all isLocalCh && emailDomainOk rest
  | _ => false

/-- The (already stripped) form fields of a blog submission. -/
structure BlogForm where
  author_name : List Char
  author_email : List Char
  blog_title : List Char
  blog_content : List Char
  blog_date : List Char
deriving DecidableEq

/-- Outcome of a POST to `/add_blog`. -/
inductive AddBlogOutcome where
  | validationFailed (msgs : List (List Char))
  | opFailed
  | success
deriving DecidableEq

/-- The validation-error list built by `add_blog` (lines 162-191), in
the order the code appends the messages. -/
def addBlogErrors (f : BlogForm) : List (List Char) :=
  (if f.author_name.isEmpty then [String.toList "Author name is required."]
   else if f.author_name.length < 2 then
     [String.toList "Author name must be at least 2 characters long."]
   else []) ++
  (if f.author_email.isEmpty then [String.toList "Author email is required."]
   else if !validate_email f.author_email then
     [String.toList "Please provide a valid email address."]
   else []) ++
  (if f.blog_title.isEmpty then [String.toList "Blog title is required."]
   else if f.blog_title.length < 5 then
     [String.toList "Blog title must be at least 5 characters long."]
   else []) ++
  (if f.blog_content.isEmpty then [String.toList "Blog content is required."]
   else if f.blog_content.length < 10 then
     [String.toList "Blog content must be at least 10 characters long."]
   else []) ++
  (if f.blog_date.isEmpty then [String.toList "Publication date is required."]
   else if (validate_date f.blog_date).isNone then
     [String.toList "Please provide a valid date."]
   else [])

/-- The second commit unit: `Blog(...)` construction (constructor
strips title/content, derives slug and excerpt, re-checks lengths —
any `ValueError` lands in the route's `except`) followed by
`db.session.add` / `db.session.commit`; a duplicate slug violates the
unique constraint at commit, which rolls back only this unit. -/
def insertBlog (db : DB) (f : BlogForm) (date : List Char) (aid : Nat) :
    DB × AddBlogOutcome :=
  let nt := trimWs f.blog_title
  let nc := trimWs f.blog_content
  let slug := generate_slug f.blog_title
  if nt.isEmpty || nc.isEmpty || nt.length < 5 || nc.length < 10 then
    (db, AddBlogOutcome.opFailed)
  else if db.blogs.any (fun x => x.slug == slug) then
    (db, AddBlogOutcome.opFailed)
  else
    ({ db with
        blogs := db.blogs ++ [⟨db.next_blog_id, nt, nc, date, slug,
          generate_excerpt f.blog_content, false, true, 0, 0, aid,
          db.next_blog_id⟩],
        next_blog_id := db.next_blog_id + 1 },
      AddBlogOutcome.success)

/-- The POST branch of `add_blog`: validate; look the author up by the
raw form email; create (committing immediately) or rename it; then run
the blog insert as a second commit unit.  `Author.__init__` lowercases
the email and re-validates it, and the unique email constraint fires
at the first commit — both failures roll back only that first unit. -/
def add_blog (db : DB) (f : BlogForm) : DB × AddBlogOutcome :=
  if !(addBlogErrors f).isEmpty then
    (db, AddBlogOutcome.validationFailed (addBlogErrors f))
  else
    let date := (validate_date f.blog_date).getD f.blog_date
    match db.authors.find? (fun a => a.email == f.author_email) with
    | some a =>
      let db1 : DB :=
        if a.name ≠ f.author_name then
          { db with authors := db.authors.map (fun x =>
              if x.id == a.id then { x with name := f.author_name } else x) }
        else db
      insertBlog db1 f date a.id
    | none =>
      let newEmail := f.author_email.map Char.toLower
      if !validate_email newEmail then (db, AddBlogOutcome.opFailed)
      else if db.authors.any (fun a => a.email == newEmail) then
        (db, AddBlogOutcome.opFailed)
      else
        insertBlog
          { db with
              authors := db.authors ++
                [⟨db.next_author_id, trimWs f.author_name, newEmail⟩],
              next_author_id := db.next_author_id + 1 }
          f date db.next_author_id

/-- Store for the atomicity counterexample: one author and one blog
whose slug is exactly the slug the submitted title will generate. -/
def dbAtomic : DB :=
  ⟨[⟨1, String.toList "Old Author", String.toList "old@example.com"⟩],
   [⟨1, String.toList "Hello World", String.toList "The original post text.",
     String.toList "01-01-2024", String.toList "hello-world", [],
     false, true, 0, 0, 1, 1⟩],
   2, 2⟩

/-- A valid submission by a brand-new author whose title collides on
the slug `hello-world`. -/
def formAtomic : BlogForm :=
  ⟨String.toList "Alice", String.toList "alice@example.com",
   String.toList "Hello World", String.toList "Some content here.",
   String.toList "15-01-2024"⟩

/-- C3 counterexample: the submission passes validation, the new
author is created and committed, and the blog insert then fails on the
duplicate slug — the rollback leaves the store with the new author
persisted and no blog added, so the blog-submission operation is not a
single atomic unit of work. -/
theorem add_blog_partial_write :
    (add_blog dbAtomic formAtomic).2 = AddBlogOutcome.opFailed ∧
    (add_blog dbAtomic formAtomic).1.authors.any
      (fun a => a.email == String.toList "alice@example.com") = true ∧
    (add_blog dbAtomic formAtomic).1.blogs = dbAtomic.blogs := by
  refine ⟨?_, ?_, ?_⟩ <;> decide

/-- C3 (amended): each commit is individually atomic, but the author
upsert and the blog insert are separate commit units: whenever a valid
submission from a new email reaches the blog insert and that insert
fails on a duplicate slug, the result is a failure outcome with the
blog table unchanged and the newly created author still persisted. -/
theorem add_blog_author_persists (db : DB) (f : BlogForm)
    (h1 : (addBlogErrors f).isEmpty = true)
    (h2 : db.authors.find? (fun a => a.email == f.author_email) = none)
    (h3 : validate_email (f.author_email.map Char.toLower) = true)
    (h4 : db.authors.any (fun a => a.email == f.author_email.map Char.toLower)
      = false)
    (h5 : (trimWs f.blog_title).isEmpty = false)
    (h6 : (trimWs f.blog_content).isEmpty = false)
    (h7 : ¬ (trimWs f.blog_title).length < 5)
    (h8 : ¬ (trimWs f.blog_content).length < 10)
    (h9 : db.blogs.any (fun x => x.slug == generate_slug f.blog_title) = true) :
    (add_blog db f).2 = AddBlogOutcome.opFailed ∧
    (add_blog db f).1.blogs = db.blogs ∧
    (add_blog db f).1.authors =
      db.authors ++ [⟨db.next_author_id, trimWs f.author_name,
        f.author_email.map Char.toLower⟩] := by
  unfold add_blog insertBlog
  rw [h1, h2]
  dsimp only
  rw [h3, h4]
  simp only [Bool.not_true, Bool.false_eq_true, if_false, Bool.or_eq_true,
    decide_eq_true_eq]
  rw [if_neg (by simp [h5, h6, h7, h8]), if_pos (by simpa using h9)]
  exact ⟨rfl, rfl, rfl⟩

/-- Witness for the amended C3 at the concrete store and form. -/
theorem add_blog_author_persists_witness :
    (add_blog dbAtomic formAtomic).2 = AddBlogOutcome.opFailed ∧
    (add_blog dbAtomic formAtomic).1.blogs = dbAtomic.blogs ∧
    (add_blog dbAtomic formAtomic).1.authors =
      dbAtomic.authors ++ [⟨dbAtomic.next_author_id,
        trimWs formAtomic.author_name,
        formAtomic.author_email.map Char.toLower⟩] :=
  add_blog_author_persists dbAtomic formAtomic (by decide) (by decide)
    (by decide) (by decide) (by decide) (by decide) (by decide) (by decide)
    (by decide)

end BlogApp
